import Mathlib

/-!
Shallow embedding of the redfrog-core proxy client (package `proxy_client`,
file `proxy_client/proxy_backend.go`) and its DNS proxy (package `dns_proxy`).
Byte slices are modelled as `List Nat`, Go `time.Time` instants as natural
numbers (seconds), and Go machine integers as `Int` with explicit reduction
modulo 2^32 where a conversion to `int32` occurs.
-/

namespace RedFrog

/-- Go's built-in `copy(dst, src)`: it overwrites the first
`min (length dst) (length src)` cells of `dst` with the corresponding cells of
`src` and leaves the rest of `dst` unchanged; the value is the new contents of
`dst` (the count of copied bytes is implicit in the shape). -/
def goCopy (dst src : List Nat) : List Nat :=
  src.take (min dst.length src.length) ++ dst.drop (min dst.length src.length)

theorem goCopy_length (dst src : List Nat) : (goCopy dst src).length = dst.length := by
  simp [goCopy]

theorem goCopy_of_src_le (dst src : List Nat) (h : src.length ≤ dst.length) :
    goCopy dst src = src ++ dst.drop src.length := by
  simp [goCopy, Nat.min_eq_right h]

theorem goCopy_of_dst_le (dst src : List Nat) (h : dst.length ≤ src.length) :
    goCopy dst src = src.take dst.length := by
  have hdrop : dst.drop dst.length = [] := by simp
  simp [goCopy, Nat.min_eq_left h, hdrop]

/-- The read-and-extract phase of `proxyBackend.RelayDNS`
(`proxy_client/proxy_backend.go` lines 432-444).  Before the read, the borrowed
buffer holds `bufPre` (the encoded address header followed by the query, then
junk).  `ReadFrom` receives one datagram `dgram`, overwriting the first
`dgram.length` bytes of the buffer and returning `n = dgram.length`.  The code
then requires `n > addrLen`, allocates `response = make([]byte, n)` (zeroed by
Go), and runs `copy(response, buffer.Bytes()[addrLen:n])`. -/
def RelayDNSRead (addrLen : Nat) (bufPre : List Nat) (dgram : List Nat) :
    Except String (List Nat) :=
  let buffer := goCopy bufPre dgram
  let n := dgram.length
  if n ≤ addrLen then
    .error "Read DNS query empty"
  else
    .ok (goCopy (List.replicate n 0) ((buffer.drop addrLen).take (n - addrLen)))

/-- C1 (counterexample): with a 1-byte header and a 2-byte received datagram
`[7, 8]`, `RelayDNS` returns the response `[8, 0]` — length `n = 2`, not
`n - headerLen = 1` — because `response` is allocated with `make([]byte, n)`
while only `n - addrLen` bytes are copied into it.  The claim's predicted
response `[8]` is therefore wrong. -/
theorem RelayDNSRead_counterexample :
    (RelayDNSRead 1 [0, 0, 0] [7, 8]).toOption = some [8, 0] ∧
    ¬ (RelayDNSRead 1 [0, 0, 0] [7, 8]).toOption = some [8] := by
  decide

/-- C1 (amended): if the received datagram is no longer than the header the
call fails with an error; otherwise the returned response has length `n`
(the whole datagram length): its first `n - addrLen` bytes are the tail of the
datagram after the header and the remaining `addrLen` bytes are zero. -/
theorem RelayDNSRead_spec (addrLen : Nat) (bufPre dgram : List Nat)
    (hbuf : dgram.length ≤ bufPre.length) :
    (dgram.length ≤ addrLen →
      RelayDNSRead addrLen bufPre dgram = .error "Read DNS query empty") ∧
    (addrLen < dgram.length →
      RelayDNSRead addrLen bufPre dgram =
        .ok (dgram.drop addrLen ++ List.replicate addrLen 0)) := by
  constructor
  · intro h
    simp [RelayDNSRead, h]
  · intro h
    have hnle : ¬ dgram.length ≤ addrLen := Nat.not_le_of_lt h
    have hbuffer : goCopy bufPre dgram = dgram ++ bufPre.drop dgram.length :=
      goCopy_of_src_le bufPre dgram hbuf
    have hdrop : ((dgram ++ bufPre.drop dgram.length).drop addrLen) =
        dgram.drop addrLen ++ bufPre.drop dgram.length := by
      rw [List.drop_append_eq_append_drop]
      have : addrLen - dgram.length = 0 := by omega
      rw [this]
      simp
    have hlen : (dgram.drop addrLen).length = dgram.length - addrLen := by simp
    have htake : (dgram.drop addrLen ++ bufPre.drop dgram.length).take
        (dgram.length - addrLen) = dgram.drop addrLen := by
      rw [List.take_append_eq_append_take]
      have h0 : dgram.length - addrLen - (dgram.drop addrLen).length = 0 := by
        rw [hlen]
        omega
      rw [h0]
      simp [hlen]
    have hcopy : goCopy (List.replicate dgram.length 0) (dgram.drop addrLen) =
        dgram.drop addrLen ++ List.replicate addrLen 0 := by
      rw [goCopy_of_src_le]
      · rw [List.drop_replicate, hlen]
        congr 1
        congr 1
        omega
      · simp
    simp only [RelayDNSRead, hnle, if_false, hbuffer, hdrop, htake, hcopy]

/-- C1 witness: the amended theorem applied at header length 1, buffer
`[0,0,0]`, datagram `[7,8]`. -/
theorem RelayDNSRead_spec_witness :
    RelayDNSRead 1 [0, 0, 0] [7, 8] = .ok [8, 0] :=
  (RelayDNSRead_spec 1 [0, 0, 0] [7, 8] (by decide)).2 (by decide)

/-- Modelled from the spec: `common.LeakyBuffer` (spec section 4.2), whose source
file is not part of the repository slice under src/.  Capacity `N`, element size
`S`; `Get` returns a pooled `S`-byte buffer, or a fresh allocation when the pool
is empty; `Put` discards the buffer when the pool is full and reinserts it
otherwise.  `GetBufferSize` is the field `bufferSize`. -/
structure LeakyBuffer where
  capacity : Nat
  bufferSize : Nat
  pool : List (List Nat)
deriving DecidableEq, Repr

/-- Modelled from the spec: `LeakyBuffer.Get` — pooled buffer, or fresh `S`-byte
allocation when the pool is empty. -/
def LeakyBuffer.get (lb : LeakyBuffer) : List Nat × LeakyBuffer :=
  match lb.pool with
  | [] => (List.replicate lb.bufferSize 0, lb)
  | b :: rest => (b, { lb with pool := rest })

/-- Modelled from the spec: `LeakyBuffer.Put` — discard when full, reinsert
otherwise. -/
def LeakyBuffer.put (lb : LeakyBuffer) (b : List Nat) : LeakyBuffer :=
  if lb.pool.length < lb.capacity then { lb with pool := b :: lb.pool } else lb

/-- Which allocation path the outbound UDP send took. -/
inductive UdpSendPath
  | oneShot
  | pooled
deriving DecidableEq, Repr

/-- The outbound-send phase of `proxyBackend.RelayUDPData`
(`proxy_client/proxy_backend.go` lines 357-382).  `header` is
`udpProxy.header_`, `data` the client payload buffer, `dataLen` the payload
length.  When `totalLen = headerLen + dataLen` exceeds
`leakyBuffer.GetBufferSize()` the code allocates a one-shot `totalLen`-byte
zeroed slice and fills it with two `copy` calls; otherwise it borrows a pool
buffer, fills it in place, writes its first `totalLen` bytes, and the deferred
`Put` returns it.  The result is the path taken, the bytes handed to
`WriteTo`, and the pool state after the call. -/
def RelayUDPDataSend (lb : LeakyBuffer) (header data : List Nat) (dataLen : Nat) :
    UdpSendPath × List Nat × LeakyBuffer :=
  let headerLen := header.length
  let totalLen := headerLen + dataLen
  if totalLen > lb.bufferSize then
    let wd0 := List.replicate totalLen 0
    let wd1 := goCopy (wd0.take headerLen) header ++ wd0.drop headerLen
    let wd2 := wd1.take headerLen ++ goCopy (wd1.drop headerLen) (data.take dataLen)
    (.oneShot, wd2, lb)
  else
    let got := lb.get
    let b1 := goCopy got.1 header
    let b2 := b1.take headerLen ++ goCopy (b1.drop headerLen) (data.take dataLen)
    (.pooled, b2.take totalLen, got.2.put b2)

/-- C2 (counterexample): pool element size 4, header of length 2, payload of
length `dataLen = 4` equal to the pool's element size.  Then
`totalLen = 6 > 4`, so the one-shot allocation path is taken and the pool is
not borrowed — contradicting the claim that a payload equal to the pool
element size uses the pooled path. -/
theorem RelayUDPDataSend_counterexample :
    (RelayUDPDataSend ⟨1, 4, [[9, 9, 9, 9]]⟩ [1, 2] [5, 5, 5, 5] 4).1 =
      UdpSendPath.oneShot ∧
    ¬ (RelayUDPDataSend ⟨1, 4, [[9, 9, 9, 9]]⟩ [1, 2] [5, 5, 5, 5] 4).1 =
      UdpSendPath.pooled := by
  decide

/-- C2 (amended): the pooled buffer is used exactly when
`headerLen + dataLen` fits within the pool's buffer size (so a payload equal
to the element size takes the one-shot path whenever the header is nonempty);
on both paths the bytes handed to `WriteTo` are `header ++ data.take dataLen`;
on the pooled path with a nonempty, size-respecting pool the borrowed buffer
is returned, leaving the pool count unchanged, and on the one-shot path the
pool is untouched. -/
theorem relayUDPFill (buf header data : List Nat) (dataLen : Nat)
    (hdata : dataLen ≤ data.length)
    (hbuf : header.length + dataLen ≤ buf.length) :
    ((goCopy buf header).take header.length ++
      goCopy ((goCopy buf header).drop header.length) (data.take dataLen)).take
      (header.length + dataLen) = header ++ data.take dataLen := by
  have hlen_take : (data.take dataLen).length = dataLen := by
    simp [hdata]
  have hb1 : goCopy buf header = header ++ buf.drop header.length :=
    goCopy_of_src_le buf header (by omega)
  have hb1take : (header ++ buf.drop header.length).take header.length = header := by
    rw [List.take_append_eq_append_take, List.take_length, Nat.sub_self, List.take_zero,
      List.append_nil]
  have hb1drop : (header ++ buf.drop header.length).drop header.length =
      buf.drop header.length := by
    rw [List.drop_append_eq_append_drop, List.drop_length, Nat.sub_self, List.drop_zero,
      List.nil_append]
  have hb2inner : goCopy (buf.drop header.length) (data.take dataLen) =
      data.take dataLen ++ (buf.drop header.length).drop dataLen := by
    have h := goCopy_of_src_le (buf.drop header.length) (data.take dataLen)
      (by rw [hlen_take, List.length_drop]; omega)
    rw [h, hlen_take]
  rw [hb1, hb1take, hb1drop, hb2inner]
  rw [List.take_append_eq_append_take,
    List.take_of_length_le (by omega : header.length ≤ header.length + dataLen),
    Nat.add_sub_cancel_left, List.take_append_eq_append_take, List.take_take,
    Nat.min_self, hlen_take, Nat.sub_self, List.take_zero, List.append_nil]

theorem RelayUDPDataSend_spec (lb : LeakyBuffer) (header data : List Nat)
    (dataLen : Nat) (hdata : dataLen ≤ data.length)
    (hpool : ∀ b ∈ lb.pool, b.length = lb.bufferSize)
    (hcap : lb.pool.length ≤ lb.capacity) :
    ((RelayUDPDataSend lb header data dataLen).1 = UdpSendPath.pooled ↔
      header.length + dataLen ≤ lb.bufferSize) ∧
    (RelayUDPDataSend lb header data dataLen).2.1 = header ++ data.take dataLen ∧
    (lb.bufferSize < header.length + dataLen →
      (RelayUDPDataSend lb header data dataLen).2.2 = lb) ∧
    (header.length + dataLen ≤ lb.bufferSize → lb.pool ≠ [] →
      (RelayUDPDataSend lb header data dataLen).2.2.pool.length = lb.pool.length) := by
  have hlen_take : (data.take dataLen).length = dataLen := by
    simp [hdata]
  by_cases hfit : header.length + dataLen ≤ lb.bufferSize
  · -- pooled path
    have hnot : ¬ header.length + dataLen > lb.bufferSize := by omega
    have hbuflen : (lb.get.1).length = lb.bufferSize := by
      cases hp : lb.pool with
      | nil => simp [LeakyBuffer.get, hp]
      | cons b rest =>
        simp only [LeakyBuffer.get, hp]
        exact hpool b (by simp [hp])
    have heval : RelayUDPDataSend lb header data dataLen =
        (.pooled,
         ((goCopy lb.get.1 header).take header.length ++
           goCopy ((goCopy lb.get.1 header).drop header.length)
             (data.take dataLen)).take (header.length + dataLen),
         lb.get.2.put ((goCopy lb.get.1 header).take header.length ++
           goCopy ((goCopy lb.get.1 header).drop header.length)
             (data.take dataLen))) := by
      simp only [RelayUDPDataSend, if_neg hnot]
    refine ⟨?_, ?_, ?_, ?_⟩
    · simp [heval, hfit]
    · rw [heval]
      exact relayUDPFill lb.get.1 header data dataLen hdata (by omega)
    · intro h
      omega
    · intro _ hne
      rw [heval]
      cases hp : lb.pool with
      | nil => exact absurd hp hne
      | cons b rest =>
        have hlt : rest.length < lb.capacity := by
          have := hcap
          rw [hp] at this
          simp at this
          omega
        simp [LeakyBuffer.get, LeakyBuffer.put, hp, hlt]
  · -- one-shot path
    have hgt : header.length + dataLen > lb.bufferSize := by omega
    have hw0take : (List.replicate (header.length + dataLen) 0).take header.length =
        List.replicate header.length (0 : Nat) := by
      rw [List.take_replicate, Nat.min_eq_left (by omega)]
    have hw0drop : (List.replicate (header.length + dataLen) 0).drop header.length =
        List.replicate dataLen (0 : Nat) := by
      rw [List.drop_replicate, Nat.add_sub_cancel_left]
    have hc1 : goCopy (List.replicate header.length (0 : Nat)) header = header := by
      rw [goCopy_of_src_le _ _ (by simp), List.drop_replicate, Nat.sub_self]
      simp
    have hw1 : goCopy ((List.replicate (header.length + dataLen) 0).take header.length)
        header ++ (List.replicate (header.length + dataLen) 0).drop header.length =
        header ++ List.replicate dataLen (0 : Nat) := by
      rw [hw0take, hw0drop, hc1]
    have hw1take : (header ++ List.replicate dataLen (0 : Nat)).take header.length =
        header := by
      rw [List.take_append_eq_append_take, List.take_length, Nat.sub_self, List.take_zero,
        List.append_nil]
    have hw1drop : (header ++ List.replicate dataLen (0 : Nat)).drop header.length =
        List.replicate dataLen (0 : Nat) := by
      rw [List.drop_append_eq_append_drop, List.drop_length, Nat.sub_self, List.drop_zero,
        List.nil_append]
    have hc2 : goCopy (List.replicate dataLen (0 : Nat)) (data.take dataLen) =
        data.take dataLen := by
      rw [goCopy_of_src_le _ _ (by simp), hlen_take, List.drop_replicate, Nat.sub_self]
      simp
    have heval : RelayUDPDataSend lb header data dataLen =
        (.oneShot, header ++ data.take dataLen, lb) := by
      simp only [RelayUDPDataSend, if_pos hgt]
      rw [hw1, hw1take, hw1drop, hc2]
    refine ⟨?_, ?_, ?_, ?_⟩
    · simp [heval, hfit]
    · rw [heval]
    · intro _
      rw [heval]
    · intro h
      omega

/-- C2 witness: the amended theorem applied to a pool of element size 8
holding one buffer, a 2-byte header and a 3-byte payload: the pooled path is
taken, the wire bytes are header then payload, and the pool count is restored
by the deferred `Put`. -/
theorem RelayUDPDataSend_spec_witness :
    (RelayUDPDataSend ⟨2, 8, [[9, 9, 9, 9, 9, 9, 9, 9]]⟩ [1, 2] [5, 6, 7] 3).1 =
      UdpSendPath.pooled ∧
    (RelayUDPDataSend ⟨2, 8, [[9, 9, 9, 9, 9, 9, 9, 9]]⟩ [1, 2] [5, 6, 7] 3).2.1 =
      [1, 2, 5, 6, 7] ∧
    (RelayUDPDataSend ⟨2, 8,
      [[9, 9, 9, 9, 9, 9, 9, 9]]⟩ [1, 2] [5, 6, 7] 3).2.2.pool.length = 1 := by
  have h := RelayUDPDataSend_spec ⟨2, 8, [[9, 9, 9, 9, 9, 9, 9, 9]]⟩ [1, 2]
    [5, 6, 7] 3 (by decide) (by decide) (by decide)
  refine ⟨h.1.mpr (by decide), ?_, h.2.2.2 (by decide) (by decide)⟩
  rw [h.2.1]
  rfl

/-- Go `strings.TrimSuffix(name, ".")`: drop one trailing dot if present,
stated on the character list underlying the string. -/
def trimDot (s : String) : String :=
  if s.data.getLast? = some '.' then String.mk s.data.dropLast else s

/-- Resource-record type tag of `github.com/miekg/dns` records, restricted to
the tags `dns_proxy` inspects (`dns.TypeA`, `dns.TypeAAAA`, `dns.TypeCNAME`,
anything else). -/
inductive RRType
  | A
  | AAAA
  | CNAME
  | other
deriving DecidableEq, Repr

/-- One answer record: class (`dns.ClassINET` or not), type tag, TTL, owner
name, the IPv4 value of an A record (as a number), and a CNAME target. -/
structure DnsRR where
  classINET : Bool
  rtype : RRType
  ttl : Nat
  name : String
  ip : Nat
  target : String
deriving DecidableEq, Repr

/-- One question: name and whether its class is `dns.ClassINET`. -/
structure DnsQuestion where
  name : String
  qclassINET : Bool
deriving DecidableEq, Repr

/-- A decoded `dns.Msg`: transaction id, questions, answers, and `body`
abstracting every remaining field. -/
structure DnsMsg where
  id : Nat
  question : List DnsQuestion
  answer : List DnsRR
  body : Nat
deriving DecidableEq, Repr

/-- `dnsCacheEntry` (`dns_proxy` source): the cached decoded response and the
two absolute deadlines, in seconds. -/
structure DnsCacheEntry where
  response : DnsMsg
  halfTtl : Nat
  ttl : Nat
deriving DecidableEq, Repr

/-- `dnsResolver`: upstream resolver address (the `*dns.Client` is behaviour,
not data). -/
structure dnsResolver where
  addr : String
deriving DecidableEq, Repr

/-- The mutable fields of `DnsServer` that the verified operations touch:
`dnsCaches` is `none` when the cache pointer is nil, `sendNum` the atomic
counter, and the two resolver slices. -/
structure DnsServerState where
  dnsCaches : Option (List (String × DnsCacheEntry))
  sendNum : Int
  localResolver : List dnsResolver
  remoteResolver : List dnsResolver
deriving DecidableEq, Repr

/-- Go map read `m[k]` for a string-keyed map modelled as an association
list. -/
def mapGet {α : Type} (m : List (String × α)) (k : String) : Option α :=
  match m with
  | [] => none
  | p :: rest => if p.1 = k then some p.2 else mapGet rest k

/-- Go `delete(m, k)`. -/
def mapDel {α : Type} (m : List (String × α)) (k : String) : List (String × α) :=
  m.filter (fun p => decide ¬ (p.1 = k))

/-- Go map write `m[k] = v`. -/
def mapSet {α : Type} (m : List (String × α)) (k : String) (v : α) :
    List (String × α) :=
  (k, v) :: mapDel m k

theorem mapGet_mapDel_self {α : Type} (m : List (String × α)) (k : String) :
    mapGet (mapDel m k) k = none := by
  induction m with
  | nil => rfl
  | cons p rest ih =>
    by_cases h : p.1 = k
    · simpa [mapDel, h] using ih
    · simpa [mapDel, mapGet, h] using ih

/-- `DnsServer.AddDnsCache` (`dns_proxy` source lines 238-244): store the
response under `domain` with `halfTtl = now + ttl >> 1` seconds and
`ttl = now + ttl` seconds, provided the cache is enabled. -/
def AddDnsCache (c : DnsServerState) (domain : String) (response : DnsMsg)
    (ttl : Nat) (now : Nat) : DnsServerState :=
  match c.dnsCaches with
  | none => c
  | some caches =>
    { c with
      dnsCaches := some (mapSet caches domain
        { response := response, halfTtl := now + ttl / 2, ttl := now + ttl }) }

/-- `DnsServer.DelDnsCache` (`dns_proxy` source lines 246-253). -/
def DelDnsCache (c : DnsServerState) (domain : String) : DnsServerState :=
  match c.dnsCaches with
  | none => c
  | some caches => { c with dnsCaches := some (mapDel caches domain) }

/-- `DnsServer.GetDnsCache` (`dns_proxy` source lines 255-273).  On a present
entry: a hit while `now.Before(res.ttl)`, returning the stored response and the
flag `now.After(res.halfTtl)`; otherwise the entry is deleted and the call
reports a miss. -/
def GetDnsCache (c : DnsServerState) (domain : String) (now : Nat) :
    (Option DnsMsg × Bool) × DnsServerState :=
  match c.dnsCaches with
  | none => ((none, false), c)
  | some caches =>
    match mapGet caches domain with
    | none => ((none, false), c)
    | some res =>
      if now < res.ttl then
        ((some res.response, decide (res.halfTtl < now)), c)
      else
        ((none, false), { c with dnsCaches := some (mapDel caches domain) })

/-- Concrete cached response used to exercise the cache operations. -/
def c3Msg : DnsMsg :=
  { id := 1, question := [], answer := [], body := 42 }

/-- Concrete cache entry: `halfTtl = 5`, `ttl = 10`. -/
def c3Entry : DnsCacheEntry :=
  { response := c3Msg, halfTtl := 5, ttl := 10 }

/-- Concrete server state holding the single cache entry `"a" ↦ c3Entry`. -/
def c3State : DnsServerState :=
  { dnsCaches := some [("a", c3Entry)], sendNum := 1,
    localResolver := [], remoteResolver := [] }

/-- C3 (counterexample): looking up the entry `halfTtl = 5, ttl = 10` at
`now = 5` — i.e. exactly at `halfTtl` — returns the cached response with the
stale-refresh flag CLEAR, because the code computes the flag as
`now.After(res.halfTtl)`, which is strict.  The claim predicts the flag set. -/
theorem GetDnsCache_counterexample :
    (GetDnsCache c3State "a" 5).1 = (some c3Msg, false) ∧
    ¬ (GetDnsCache c3State "a" 5).1 = (some c3Msg, true) := by
  decide

/-- C3 (amended): on a present entry, if `now ≥ ttl` the entry is removed and
the lookup misses; if `halfTtl < now < ttl` (strictly after `halfTtl`) the
lookup hits with the stale-refresh flag set; and if `now ≤ halfTtl` with
`now < ttl` — including `now = halfTtl` exactly — the lookup hits with the
flag clear.  The server state is unchanged on both hit regimes. -/
theorem GetDnsCache_spec (c : DnsServerState)
    (caches : List (String × DnsCacheEntry)) (domain : String)
    (res : DnsCacheEntry) (now : Nat)
    (hc : c.dnsCaches = some caches) (hlook : mapGet caches domain = some res) :
    (res.ttl ≤ now →
      GetDnsCache c domain now =
        ((none, false), { c with dnsCaches := some (mapDel caches domain) }) ∧
      mapGet (mapDel caches domain) domain = none) ∧
    (res.halfTtl < now → now < res.ttl →
      GetDnsCache c domain now = ((some res.response, true), c)) ∧
    (now ≤ res.halfTtl → now < res.ttl →
      GetDnsCache c domain now = ((some res.response, false), c)) := by
  refine ⟨?_, ?_, ?_⟩
  · intro h
    have hnot : ¬ now < res.ttl := by omega
    refine ⟨?_, mapGet_mapDel_self caches domain⟩
    simp [GetDnsCache, hc, hlook, hnot]
  · intro h1 h2
    simp [GetDnsCache, hc, hlook, h2, h1]
  · intro h1 h2
    have hnot : ¬ res.halfTtl < now := by omega
    simp [GetDnsCache, hc, hlook, h2, hnot]

/-- C3 witness: the amended theorem applied to `c3State` at `now = 12`
(expiry), `now = 7` (strictly past `halfTtl`), and `now = 3` (fresh). -/
theorem GetDnsCache_spec_witness :
    (GetDnsCache c3State "a" 12).1 = (none, false) ∧
    (GetDnsCache c3State "a" 7).1 = (some c3Msg, true) ∧
    (GetDnsCache c3State "a" 3).1 = (some c3Msg, false) := by
  refine ⟨?_, ?_, ?_⟩
  · have h := ((GetDnsCache_spec c3State [("a", c3Entry)] "a" c3Entry 12 rfl
      (by decide)).1 (by decide)).1
    rw [h]
  · have h := (GetDnsCache_spec c3State [("a", c3Entry)] "a" c3Entry 7 rfl
      (by decide)).2.1 (by decide) (by decide)
    rw [h]
    rfl
  · have h := (GetDnsCache_spec c3State [("a", c3Entry)] "a" c3Entry 3 rfl
      (by decide)).2.2 (by decide) (by decide)
    rw [h]
    rfl

/-- Rewrite the transaction id of the response stored under `k`, leaving every
other entry and both deadlines unchanged.  This is the heap effect of
`resDns.Id = r.Id` in `checkCache`: `resDns` is the pointer stored in the
cache map, so the assignment mutates the cached message in place. -/
def mapSetId (m : List (String × DnsCacheEntry)) (k : String) (rid : Nat) :
    List (String × DnsCacheEntry) :=
  m.map (fun p =>
    if p.1 = k then
      (p.1, { p.2 with response := { p.2.response with id := rid } })
    else p)

/-- The cache-level view of `resDns.Id = r.Id` inside `checkCache`. -/
def setCachedId (c : DnsServerState) (domain : String) (rid : Nat) :
    DnsServerState :=
  match c.dnsCaches with
  | none => c
  | some caches => { c with dnsCaches := some (mapSetId caches domain rid) }

theorem mapGet_mapSetId_self (m : List (String × DnsCacheEntry)) (k : String)
    (rid : Nat) :
    mapGet (mapSetId m k rid) k =
      (mapGet m k).map
        (fun e => { e with response := { e.response with id := rid } }) := by
  induction m with
  | nil => rfl
  | cons p rest ih =>
    by_cases h : p.1 = k
    · simp [mapSetId, mapGet, h]
    · simpa [mapSetId, mapGet, h] using ih

theorem mapGet_mapSetId_other (m : List (String × DnsCacheEntry)) (k k' : String)
    (rid : Nat) (hne : ¬ k' = k) :
    mapGet (mapSetId m k rid) k' = mapGet m k' := by
  induction m with
  | nil => rfl
  | cons p rest ih =>
    by_cases h : p.1 = k
    · have hkk' : ¬ k = k' := fun hk => hne hk.symm
      simpa [mapSetId, mapGet, h, hkk'] using ih
    · by_cases h' : p.1 = k'
      · simp [mapSetId, mapGet, h, h', hne]
      · simpa [mapSetId, mapGet, h, h'] using ih

/-- The question loop of `DnsServer.checkCache` (`dns_proxy` source lines
436-448): for each INET-class question, look the trimmed name up; on the first
hit assign `resDns.Id = r.Id` — mutating the cached message through the shared
pointer — and return it with the refresh flag. -/
def checkCacheLoop (c : DnsServerState) (rid : Nat) (now : Nat) :
    List DnsQuestion → (Option DnsMsg × Bool) × DnsServerState
  | [] => ((none, false), c)
  | q :: qs =>
    if q.qclassINET then
      match GetDnsCache c (trimDot q.name) now with
      | ((some resDns, needRefreshCache), c1) =>
        ((some { resDns with id := rid }, needRefreshCache),
          setCachedId c1 (trimDot q.name) rid)
      | ((none, _), c1) => checkCacheLoop c1 rid now qs
    else checkCacheLoop c rid now qs

/-- `DnsServer.checkCache` (`dns_proxy` source lines 436-448). -/
def checkCache (c : DnsServerState) (r : DnsMsg) (now : Nat) :
    (Option DnsMsg × Bool) × DnsServerState :=
  match c.dnsCaches with
  | none => ((none, false), c)
  | some _ => checkCacheLoop c r.id now r.question

theorem checkCacheHitEval (c : DnsServerState)
    (caches : List (String × DnsCacheEntry)) (q : DnsQuestion) (r : DnsMsg)
    (entry : DnsCacheEntry) (now : Nat)
    (hc : c.dnsCaches = some caches) (hr : r.question = [q])
    (hq : q.qclassINET = true)
    (hlook : mapGet caches (trimDot q.name) = some entry)
    (hfresh : now < entry.ttl) :
    checkCache c r now =
      ((some { entry.response with id := r.id }, decide (entry.halfTtl < now)),
        { c with dnsCaches := some (mapSetId caches (trimDot q.name) r.id) }) := by
  have hget : GetDnsCache c (trimDot q.name) now =
      ((some entry.response, decide (entry.halfTtl < now)), c) := by
    simp [GetDnsCache, hc, hlook, hfresh]
  simp [checkCache, hc, hr, checkCacheLoop, hq, hget, setCachedId]

/-- Concrete INET query with transaction id 7 for the name `"a"`. -/
def c5Query : DnsMsg :=
  { id := 7, question := [{ name := "a", qclassINET := true }],
    answer := [], body := 0 }

/-- C5 (counterexample): serving a cache hit is not read-only.  `c3State`
stores `"a" ↦ c3Entry` whose response has transaction id 1; after `checkCache`
answers the query `c5Query` (id 7) at `now = 3`, the STORED entry's response
carries id 7 — `resDns.Id = r.Id` mutates the cached message through the
shared pointer — so the stored contents changed after insertion. -/
theorem checkCache_counterexample :
    mapGet [("a", c3Entry)] "a" = some c3Entry ∧
    c3Entry.response.id = 1 ∧
    mapGet ((checkCache c3State c5Query 3).2.dnsCaches.getD []) "a" =
      some { response := { c3Msg with id := 7 }, halfTtl := 5, ttl := 10 } ∧
    ¬ (checkCache c3State c5Query 3).2 = c3State := by
  decide

/-- C5 (amended): serving a cache hit mutates exactly the stored response's
transaction id — the cached message aliases the returned one, so
`resDns.Id = r.Id` rewrites it in place to the query's id.  The entry's
deadlines, every other field of the response, and every other cache entry are
unchanged, so two successive lookups of the same unexpired entry observe
identical stored contents except for the transaction id. -/
theorem checkCache_mutation_spec (c : DnsServerState)
    (caches : List (String × DnsCacheEntry)) (q : DnsQuestion) (r : DnsMsg)
    (entry : DnsCacheEntry) (now : Nat)
    (hc : c.dnsCaches = some caches) (hr : r.question = [q])
    (hq : q.qclassINET = true)
    (hlook : mapGet caches (trimDot q.name) = some entry)
    (hfresh : now < entry.ttl) :
    checkCache c r now =
      ((some { entry.response with id := r.id }, decide (entry.halfTtl < now)),
        { c with dnsCaches := some (mapSetId caches (trimDot q.name) r.id) }) ∧
    mapGet (mapSetId caches (trimDot q.name) r.id) (trimDot q.name) =
      some { entry with response := { entry.response with id := r.id } } ∧
    (∀ k, ¬ k = trimDot q.name →
      mapGet (mapSetId caches (trimDot q.name) r.id) k = mapGet caches k) := by
  refine ⟨checkCacheHitEval c caches q r entry now hc hr hq hlook hfresh, ?_, ?_⟩
  · rw [mapGet_mapSetId_self, hlook]
    rfl
  · intro k hk
    exact mapGet_mapSetId_other caches (trimDot q.name) k r.id hk

/-- C5 witness: the amended theorem applied to `c3State` and `c5Query` at
`now = 3`. -/
theorem checkCache_mutation_spec_witness :
    mapGet (mapSetId [("a", c3Entry)] (trimDot "a") 7) (trimDot "a") =
      some { c3Entry with response := { c3Entry.response with id := 7 } } :=
  (checkCache_mutation_spec c3State [("a", c3Entry)]
    { name := "a", qclassINET := true } c5Query c3Entry 3 rfl rfl rfl
    (by decide) (by decide)).2.1

/-- Observable state of one UDP NAT entry: whether its key is still in
`udpNatMap_`, whether its reader goroutine has finished, and how many times
`Close()` has been invoked on each of its two sockets. -/
structure UdpEntryState where
  inMap : Bool
  readerDone : Bool
  srcCloses : Nat
  dstCloses : Nat
deriving DecidableEq, Repr

/-- The two atomic steps that touch the entry's sockets. -/
inductive UdpEvent
  | readerExit
  | stop
deriving DecidableEq, Repr

/-- `readerExit` is the tail of the reader goroutine spawned by
`RelayUDPData` (`proxy_client/proxy_backend.go` lines 342-351): when
`copyFromRemote` returns, the goroutine deletes the key from the map and then
calls `Close()` on both sockets.  `stop` is the per-entry body of
`proxyBackend.Stop` (lines 183-193): it calls `Close()` on both sockets of
every entry still in the map — without deleting the entry.  Both run under
the map's lock, so an execution is a sequence of these steps. -/
def udpStep (s : UdpEntryState) : UdpEvent → UdpEntryState
  | .readerExit =>
    if s.readerDone then s
    else
      { inMap := false, readerDone := true,
        srcCloses := s.srcCloses + 1, dstCloses := s.dstCloses + 1 }
  | .stop =>
    if s.inMap then
      { s with srcCloses := s.srcCloses + 1, dstCloses := s.dstCloses + 1 }
    else s

/-- Run an execution from a given entry state. -/
def udpRun (s : UdpEntryState) (evs : List UdpEvent) : UdpEntryState :=
  evs.foldl udpStep s

/-- C4 (counterexample): start from a live entry (in the map, reader alive,
no closes).  If `Stop()` runs while the reader is still alive and the reader
then exits, each socket's `Close()` is invoked twice — once by `Stop` (which
also leaves the entry in the map) and once again by the reader — refuting
"closed exactly once on every execution". -/
theorem udpClose_counterexample :
    udpRun ⟨true, false, 0, 0⟩ [.stop, .readerExit] = ⟨false, true, 2, 2⟩ ∧
    ¬ (udpRun ⟨true, false, 0, 0⟩ [.stop, .readerExit]).srcCloses = 1 ∧
    udpRun ⟨true, false, 0, 0⟩ [.stop] = ⟨true, false, 1, 1⟩ := by
  decide

/-- C4 (amended): in an execution in which `Stop()` does not run while the
reader is alive, both sockets are closed exactly once, upon the entry's
removal from the map (the `k = 0` case).  Each `Stop()` that runs while the
reader is still alive closes both sockets once more WITHOUT removing the
entry, so after `k` such `Stop` steps and the reader's exit each socket has
received `k + 1` `Close()` calls. -/
theorem udpClose_spec (k : Nat) :
    udpRun ⟨true, false, 0, 0⟩ (List.replicate k .stop) = ⟨true, false, k, k⟩ ∧
    udpRun ⟨true, false, 0, 0⟩ (List.replicate k .stop ++ [.readerExit]) =
      ⟨false, true, k + 1, k + 1⟩ := by
  have hgen : ∀ (n m : Nat),
      udpRun ⟨true, false, m, m⟩ (List.replicate n .stop) =
        ⟨true, false, m + n, m + n⟩ := by
    intro n
    induction n with
    | zero =>
      intro m
      simp [udpRun]
    | succ n ih =>
      intro m
      have hstep : udpStep ⟨true, false, m, m⟩ .stop = ⟨true, false, m + 1, m + 1⟩ := by
        simp [udpStep]
      calc udpRun ⟨true, false, m, m⟩ (List.replicate (n + 1) .stop)
          = udpRun ⟨true, false, m + 1, m + 1⟩ (List.replicate n .stop) := by
            simp [udpRun, List.replicate_succ, hstep]
        _ = ⟨true, false, m + 1 + n, m + 1 + n⟩ := ih (m + 1)
        _ = ⟨true, false, m + (n + 1), m + (n + 1)⟩ := by
            have harith : m + 1 + n = m + (n + 1) := by omega
            rw [harith]
  constructor
  · simpa using hgen k 0
  · rw [udpRun, List.foldl_append]
    have h1 : List.foldl udpStep ⟨true, false, 0, 0⟩ (List.replicate k .stop) =
        ⟨true, false, k, k⟩ := by
      simpa [udpRun] using hgen k 0
    rw [h1]
    simp [udpStep]

/-- Result of a Go computation that may panic. -/
inductive GoVal (α : Type)
  | ok (a : α)
  | panicked (msg : String)
deriving DecidableEq, Repr

/-- `math/rand.Int31n(n)`: panics when `n ≤ 0`, otherwise yields a uniform
value in `[0, n)`; the randomness source is abstracted by `randR`, the raw
draw reduced modulo `n`. -/
def randInt31n (n : Int) (randR : Nat) : GoVal Int :=
  if n ≤ 0 then .panicked "invalid argument to Int31n"
  else .ok ((randR : Int) % n)

/-- `DnsServer.getResolver` (`dns_proxy` source lines 408-426): choose from
the remote list when `bIsRemote`, else the local list; a singleton list is
returned directly, any other length goes through `rand.Int31n(int32(length))`
— which panics when the list is empty. -/
def getResolver (localResolver remoteResolver : List dnsResolver)
    (bIsRemote : Bool) (randR : Nat) : GoVal dnsResolver :=
  if bIsRemote then
    let length := remoteResolver.length
    if length = 1 then .ok (remoteResolver.getD 0 ⟨""⟩)
    else
      match randInt31n (length : Int) randR with
      | .panicked m => .panicked m
      | .ok i => .ok (remoteResolver.getD i.toNat ⟨""⟩)
  else
    let length := localResolver.length
    if length = 1 then .ok (localResolver.getD 0 ⟨""⟩)
    else
      match randInt31n (length : Int) randR with
      | .panicked m => .panicked m
      | .ok i => .ok (localResolver.getD i.toNat ⟨""⟩)

theorem getResolver_of_ne_nil (lr rr : List dnsResolver) (b : Bool) (randR : Nat)
    (hne : (if b then rr else lr) ≠ []) :
    ∃ x, getResolver lr rr b randR = .ok x ∧ x ∈ (if b then rr else lr) := by
  cases b with
  | true =>
    simp only [if_true] at hne ⊢
    by_cases h1 : rr.length = 1
    · refine ⟨rr.getD 0 ⟨""⟩, ?_, ?_⟩
      · simp [getResolver, h1]
      · have hlt : 0 < rr.length := by omega
        rw [List.getD_eq_getElem rr ⟨""⟩ hlt]
        exact List.getElem_mem hlt
    · have hpos : 0 < rr.length := List.length_pos.mpr hne
      have hnle : ¬ ((rr.length : Int) ≤ 0) := by
        omega
      have hidx : ((randR : Int) % (rr.length : Int)).toNat < rr.length := by
        have h0 : (0 : Int) ≤ (randR : Int) % (rr.length : Int) :=
          Int.emod_nonneg _ (by omega)
        have h2 : (randR : Int) % (rr.length : Int) < (rr.length : Int) :=
          Int.emod_lt_of_pos _ (by omega)
        omega
      refine ⟨rr.getD ((randR : Int) % (rr.length : Int)).toNat ⟨""⟩, ?_, ?_⟩
      · simp [getResolver, h1, randInt31n, hnle]
      · rw [List.getD_eq_getElem rr ⟨""⟩ hidx]
        exact List.getElem_mem hidx
  | false =>
    replace hne : lr ≠ [] := hne
    by_cases h1 : lr.length = 1
    · refine ⟨lr.getD 0 ⟨""⟩, ?_, ?_⟩
      · simp [getResolver, h1]
      · have hlt : 0 < lr.length := by omega
        rw [List.getD_eq_getElem lr ⟨""⟩ hlt]
        exact List.getElem_mem hlt
    · have hpos : 0 < lr.length := List.length_pos.mpr hne
      have hnle : ¬ ((lr.length : Int) ≤ 0) := by
        omega
      have hidx : ((randR : Int) % (lr.length : Int)).toNat < lr.length := by
        have h0 : (0 : Int) ≤ (randR : Int) % (lr.length : Int) :=
          Int.emod_nonneg _ (by omega)
        have h2 : (randR : Int) % (lr.length : Int) < (lr.length : Int) :=
          Int.emod_lt_of_pos _ (by omega)
        omega
      refine ⟨lr.getD ((randR : Int) % (lr.length : Int)).toNat ⟨""⟩, ?_, ?_⟩
      · simp [getResolver, h1, randInt31n, hnle]
      · rw [List.getD_eq_getElem lr ⟨""⟩ hidx]
        exact List.getElem_mem hidx

theorem getResolver_of_nil (lr rr : List dnsResolver) (b : Bool) (randR : Nat)
    (hnil : (if b then rr else lr) = []) :
    getResolver lr rr b randR = .panicked "invalid argument to Int31n" := by
  cases b with
  | true =>
    simp only [if_true] at hnil
    simp [getResolver, hnil, randInt31n]
  | false =>
    replace hnil : lr = [] := hnil
    simp [getResolver, hnil, randInt31n]

/-- C9: when the selected resolver list (remote when `bIsRemote`, local
otherwise) is non-empty, `getResolver` returns one of its elements; when it is
empty the call does not return a resolver but panics inside
`rand.Int31n(0)`. -/
theorem getResolver_spec (lr rr : List dnsResolver) (b : Bool) (randR : Nat) :
    ((if b then rr else lr) ≠ [] →
      ∃ x, getResolver lr rr b randR = .ok x ∧ x ∈ (if b then rr else lr)) ∧
    ((if b then rr else lr) = [] →
      getResolver lr rr b randR = .panicked "invalid argument to Int31n") :=
  ⟨getResolver_of_ne_nil lr rr b randR, getResolver_of_nil lr rr b randR⟩

/-- C9 witness: a two-element remote list yields a member; an empty selected
list panics. -/
theorem getResolver_spec_witness :
    (∃ x, getResolver [] [⟨"8.8.8.8:53"⟩, ⟨"9.9.9.9:53"⟩] true 5 = .ok x ∧
      x ∈ [(⟨"8.8.8.8:53"⟩ : dnsResolver), ⟨"9.9.9.9:53"⟩]) ∧
    getResolver [⟨"1.1.1.1:53"⟩] [] true 0 =
      .panicked "invalid argument to Int31n" := by
  constructor
  · have h := (getResolver_spec [] [⟨"8.8.8.8:53"⟩, ⟨"9.9.9.9:53"⟩] true 5).1
      (by simp)
    simpa using h
  · have h := (getResolver_spec [⟨"1.1.1.1:53"⟩] [] true 0).2 (by simp)
    exact h

/-- The answer loop of `ServeDNS` (`dns_proxy` source lines 531-558):
accumulate `shouldAddCache` and the running maximum TTL over INET-class
records (the TTL maximum is updated before the type switch); A records mark
the response cacheable and feed `(trimmed name, ip)` into the routing manager;
CNAME records feed the trimmed target into the policy (pac) manager; AAAA
handling is commented out in the code and therefore falls through. -/
def processAnswers : List DnsRR → Bool → Nat →
    Bool × Nat × List (String × Nat) × List String
  | [], sac, ttl => (sac, ttl, [], [])
  | a :: rest, sac, ttl =>
    if a.classINET then
      let ttl1 := if a.ttl > ttl then a.ttl else ttl
      match a.rtype with
      | .A =>
        let r := processAnswers rest true ttl1
        (r.1, r.2.1, (trimDot a.name, a.ip) :: r.2.2.1, r.2.2.2)
      | .CNAME =>
        let r := processAnswers rest sac ttl1
        (r.1, r.2.1, r.2.2.1, trimDot a.target :: r.2.2.2)
      | _ => processAnswers rest sac ttl1
    else processAnswers rest sac ttl

/-- Observable effects of one `ServeDNS` invocation on the proxied (blacked)
path: responses written to the client via `w.WriteMsg`, whether
`proxyClient.ExchangeDNS` was invoked, whether the handler panicked (inside
`getResolver` on an empty list), the `(name, ip)` pairs passed to
`routingMgr.AddIp`, the CNAME targets passed to `pacMgr.AddDomain`, and the
final server state. -/
structure ServeEffects where
  writes : List DnsMsg
  exchanged : Bool
  panicked : Bool
  routingAdds : List (String × Nat)
  pacAdds : List String
  state : DnsServerState
deriving DecidableEq, Repr

/-- The upstream half of the blacked path of `ServeDNS` (`dns_proxy` source
lines 519-565): select a remote resolver (this panics on an empty list before
anything else happens), pack the query (`packOk` abstracts `r.Pack()`),
exchange it through the tunnel (`exch` abstracts the result of
`proxyClient.ExchangeDNS`, whose body lies outside the verified slice),
rewrite the upstream answer's id, harvest answers, cache when an A record was
seen and caching is on, and write the answer back unless `bWriteBack` was set
by a stale cache hit. -/
def ServeDNSUpstream (c1 : DnsServerState) (r : DnsMsg) (domainName : String)
    (randR : Nat) (packOk : Bool) (exch : Option DnsMsg) (now : Nat)
    (writes0 : List DnsMsg) (bWriteBack : Bool) : ServeEffects :=
  match getResolver c1.localResolver c1.remoteResolver true randR with
  | .panicked _ =>
    { writes := writes0, exchanged := false, panicked := true,
      routingAdds := [], pacAdds := [], state := c1 }
  | .ok _ =>
    if ¬ packOk then
      { writes := writes0, exchanged := false, panicked := false,
        routingAdds := [], pacAdds := [], state := c1 }
    else
      match exch with
      | none =>
        { writes := writes0, exchanged := true, panicked := false,
          routingAdds := [], pacAdds := [], state := c1 }
      | some res =>
        let resDns := { res with id := r.id }
        let pa := processAnswers resDns.answer false 0
        let c2 := if pa.1 && c1.dnsCaches.isSome then
            AddDnsCache c1 domainName resDns pa.2.1 now
          else c1
        { writes := if ¬ bWriteBack then writes0 ++ [resDns] else writes0,
          exchanged := true, panicked := false,
          routingAdds := pa.2.2.1, pacAdds := pa.2.2.2, state := c2 }

/-- The blacked (proxied) branch of `ServeDNS` (`dns_proxy` source lines
508-566): consult the cache; a hit is written back immediately; a fresh hit
returns, a stale hit sets `bWriteBack` and continues upstream; a miss goes
upstream with write-back enabled. -/
def ServeDNSBlacked (c : DnsServerState) (r : DnsMsg) (domainName : String)
    (randR : Nat) (packOk : Bool) (exch : Option DnsMsg) (now : Nat) :
    ServeEffects :=
  match checkCache c r now with
  | ((some resDns, bRefreshCache), c1) =>
    if ¬ bRefreshCache then
      { writes := [resDns], exchanged := false, panicked := false,
        routingAdds := [], pacAdds := [], state := c1 }
    else
      ServeDNSUpstream c1 r domainName randR packOk exch now [resDns] true
  | ((none, _), c1) =>
    ServeDNSUpstream c1 r domainName randR packOk exch now [] false

/-- C6: on a stale-fresh cache hit (`halfTtl < now < ttl`, the amended C3
boundary) with a packable query and a non-empty remote resolver list, the
blacked path writes exactly one response to the client — the cached one with
its id rewritten to the query's — while still invoking the upstream exchange,
whatever that exchange returns; the refreshed answer is never written back. -/
theorem ServeDNSBlacked_staleFresh (c : DnsServerState)
    (caches : List (String × DnsCacheEntry)) (q : DnsQuestion) (r : DnsMsg)
    (entry : DnsCacheEntry) (domainName : String) (randR : Nat)
    (exch : Option DnsMsg) (now : Nat)
    (hc : c.dnsCaches = some caches) (hr : r.question = [q])
    (hq : q.qclassINET = true)
    (hlook : mapGet caches (trimDot q.name) = some entry)
    (hstale : entry.halfTtl < now) (hfresh : now < entry.ttl)
    (hrr : c.remoteResolver ≠ []) :
    (ServeDNSBlacked c r domainName randR true exch now).writes =
      [{ entry.response with id := r.id }] ∧
    (ServeDNSBlacked c r domainName randR true exch now).exchanged = true ∧
    (ServeDNSBlacked c r domainName randR true exch now).panicked = false := by
  have hcc : checkCache c r now =
      ((some { entry.response with id := r.id }, true),
        { c with dnsCaches := some (mapSetId caches (trimDot q.name) r.id) }) := by
    have h := checkCacheHitEval c caches q r entry now hc hr hq hlook hfresh
    rw [h]
    simp [hstale]
  have hrr1 : ({ c with dnsCaches := some (mapSetId caches (trimDot q.name) r.id) } :
      DnsServerState).remoteResolver ≠ [] := hrr
  obtain ⟨x, hx, -⟩ := getResolver_of_ne_nil
    ({ c with dnsCaches := some (mapSetId caches (trimDot q.name) r.id) } :
      DnsServerState).localResolver
    ({ c with dnsCaches := some (mapSetId caches (trimDot q.name) r.id) } :
      DnsServerState).remoteResolver true randR hrr1
  cases exch with
  | none =>
    simp only [ServeDNSBlacked, hcc, not_true, if_false, ServeDNSUpstream, hx]
    simp
  | some res =>
    simp only [ServeDNSBlacked, hcc, not_true, if_false, ServeDNSUpstream, hx]
    simp

/-- Concrete server state for exercising the stale-refresh flow: the cache
holds `"a" ↦ c3Entry` and one remote resolver is configured. -/
def c6State : DnsServerState :=
  { dnsCaches := some [("a", c3Entry)], sendNum := 1,
    localResolver := [], remoteResolver := [⟨"8.8.8.8:53"⟩] }

/-- C6 witness: at `now = 7` (between `halfTtl = 5` and `ttl = 10`), with a
successful upstream exchange returning `c3Msg`, the client receives exactly
the cached response with id 7 and the exchange did happen. -/
theorem ServeDNSBlacked_staleFresh_witness :
    (ServeDNSBlacked c6State c5Query "a" 0 true (some c3Msg) 7).writes =
      [{ c3Msg with id := 7 }] ∧
    (ServeDNSBlacked c6State c5Query "a" 0 true (some c3Msg) 7).exchanged =
      true := by
  have h := ServeDNSBlacked_staleFresh c6State [("a", c3Entry)]
    { name := "a", qclassINET := true } c5Query c3Entry "a" 0 (some c3Msg) 7
    rfl rfl rfl (by decide) (by decide) (by decide) (by decide)
  exact ⟨h.1, h.2.1⟩

/-- `relayDataRes` (`proxy_client/proxy_backend.go` lines 62-65): the value the
copy goroutine sends back over the rendezvous channel. -/
structure relayDataRes where
  outboundSize : Int
  Err : Option String
deriving DecidableEq, Repr

/-- Which branch `RelayTCPData` ends in. -/
inductive TcpPath
  | headerFail
  | kcp
  | dialFail
  | plain
deriving DecidableEq, Repr

/-- The return-value assembly at the end of the plain path of `RelayTCPData`
(lines 301-311): `inboundSize` comes from the main task's
`io.Copy(src, dst)` — remote to client; the goroutine's `relayDataRes`
supplies `outboundSize` — client to remote — and its error is reported only
when the main copy's own error is nil. -/
def relayTCPAssemble (inboundSize : Int) (errMain : Option String)
    (rs : relayDataRes) : Int × Int × Option String :=
  (inboundSize, rs.outboundSize,
    match errMain with
    | none => rs.Err
    | some e => some e)

/-- Control flow of `proxyBackend.RelayTCPData` (lines 259-312) with its
external calls as oracles: `hdr` is the result of
`network.ConvertShadowSocksAddr` on the client's local address; `kcpBackend`
is `none` when the mux backend is nil and `some b` with `b` the success of
`GetKcpConn()`; `dialOk` abstracts `createTCPConn`; `kcpRes` and `plainRes`
are the `(inbound, outbound, err)` outcomes of the two relay bodies
(`relayKCPData`, and header-write plus bidirectional copy on the plain
tunnel). -/
def RelayTCPData (hdr : Option (List Nat)) (kcpBackend : Option Bool)
    (dialOk : Bool) (kcpRes plainRes : Int × Int × Option String) :
    TcpPath × Int × Int × Option String :=
  match hdr with
  | none => (.headerFail, 0, 0, some "Parse origin dst failed")
  | some _ =>
    match kcpBackend with
    | some true => (.kcp, kcpRes)
    | _ =>
      if ¬ dialOk then (.dialFail, 0, 0, some "Create remote conn failed")
      else (.plain, plainRes)

/-- C7: with the mux (KCP) transport enabled but `GetKcpConn` failing
(`kcpBackend = some false`), `RelayTCPData` behaves exactly as if no mux
backend existed: the failure is invisible to the caller, the relay falls back
to dialing the plain cipher-wrapped tunnel, and — when the header parses and
the dial succeeds — the call's result is the plain-tunnel path's result. -/
theorem RelayTCPData_kcpFallback (hdr : Option (List Nat)) (dialOk : Bool)
    (kcpRes plainRes : Int × Int × Option String) :
    RelayTCPData hdr (some false) dialOk kcpRes plainRes =
      RelayTCPData hdr none dialOk kcpRes plainRes ∧
    (¬ hdr = none → dialOk = true →
      RelayTCPData hdr (some false) dialOk kcpRes plainRes =
        (.plain, plainRes)) := by
  constructor
  · cases hdr <;> rfl
  · intro h hd
    cases hdr with
    | none => exact absurd rfl h
    | some a => simp [RelayTCPData, hd]

/-- C7 witness: the fallback theorem applied to a parsed header and a
successful dial. -/
theorem RelayTCPData_kcpFallback_witness :
    RelayTCPData (some [1, 0, 0, 0, 1, 0, 80]) (some false) true
      (1, 2, none) (3, 4, none) = (.plain, 3, 4, none) :=
  (RelayTCPData_kcpFallback (some [1, 0, 0, 0, 1, 0, 80]) true
    (1, 2, none) (3, 4, none)).2 (by simp) rfl

/-- The seven events of the plain-path copy protocol (lines 291-311).  The
goroutine runs `io.Copy(dst, src)` (client to remote), then sets both
sockets' deadlines to `time.Now()`, then sends its `relayDataRes` on the
unbuffered channel; the main task runs `io.Copy(src, dst)` (remote to
client), then sets both deadlines to `time.Now()`, then receives from the
channel, then returns. -/
inductive CopyEvent
  | goCopyDone
  | goDeadlines
  | goSend
  | mainCopyDone
  | mainDeadlines
  | mainRecv
  | mainReturn
deriving DecidableEq, Repr

/-- `a` occurs strictly before `b` in the trace. -/
def evBefore (t : List CopyEvent) (a b : CopyEvent) : Prop :=
  t.indexOf a < t.indexOf b

instance (t : List CopyEvent) (a b : CopyEvent) : Decidable (evBefore t a b) := by
  unfold evBefore
  infer_instance

/-- An interleaving is valid when every event occurs and the two tasks'
program orders plus the channel rendezvous (the send precedes the receive's
completion) are respected. -/
def ValidCopyTrace (t : List CopyEvent) : Prop :=
  CopyEvent.goCopyDone ∈ t ∧ CopyEvent.goDeadlines ∈ t ∧ CopyEvent.goSend ∈ t ∧
  CopyEvent.mainCopyDone ∈ t ∧ CopyEvent.mainDeadlines ∈ t ∧
  CopyEvent.mainRecv ∈ t ∧ CopyEvent.mainReturn ∈ t ∧
  evBefore t .goCopyDone .goDeadlines ∧ evBefore t .goDeadlines .goSend ∧
  evBefore t .mainCopyDone .mainDeadlines ∧
  evBefore t .mainDeadlines .mainRecv ∧ evBefore t .mainRecv .mainReturn ∧
  evBefore t .goSend .mainRecv

instance (t : List CopyEvent) : Decidable (ValidCopyTrace t) := by
  unfold ValidCopyTrace
  infer_instance

/-- C8: in every valid interleaving of the two half-duplex copies, the call
returns only after both copies have completed; each copy is followed (in its
task) by an event setting both sockets' deadlines to "now" — in particular
the first copy to finish sets them — and every deadline-setting event
precedes the return; and the returned pair is
`(inboundSize, outboundSize) = (remote-to-client bytes, client-to-remote
bytes)`, with the goroutine's error reported only when the main copy's error
is nil. -/
theorem RelayTCPData_copyProtocol (t : List CopyEvent) (ht : ValidCopyTrace t)
    (inboundSize : Int) (errMain : Option String) (rs : relayDataRes) :
    evBefore t .goCopyDone .mainReturn ∧
    evBefore t .mainCopyDone .mainReturn ∧
    evBefore t .goCopyDone .goDeadlines ∧
    evBefore t .mainCopyDone .mainDeadlines ∧
    evBefore t .goDeadlines .mainReturn ∧
    evBefore t .mainDeadlines .mainReturn ∧
    relayTCPAssemble inboundSize errMain rs =
      (inboundSize, rs.outboundSize,
        match errMain with
        | none => rs.Err
        | some e => some e) := by
  obtain ⟨-, -, -, -, -, -, -, h1, h2, h3, h4, h5, h6⟩ := ht
  unfold evBefore at h1 h2 h3 h4 h5 h6 ⊢
  refine ⟨by omega, by omega, by omega, by omega, by omega, by omega, rfl⟩

/-- A concrete valid interleaving: the goroutine's copy finishes first. -/
def copyTrace0 : List CopyEvent :=
  [.goCopyDone, .goDeadlines, .goSend, .mainCopyDone, .mainDeadlines,
   .mainRecv, .mainReturn]

/-- C8 witness: the copy-protocol theorem applied to `copyTrace0` with the
main copy reporting 3 inbound bytes and the goroutine 4 outbound bytes. -/
theorem RelayTCPData_copyProtocol_witness :
    evBefore copyTrace0 .goCopyDone .mainReturn ∧
    evBefore copyTrace0 .mainCopyDone .mainReturn ∧
    evBefore copyTrace0 .goCopyDone .goDeadlines ∧
    evBefore copyTrace0 .mainCopyDone .mainDeadlines ∧
    evBefore copyTrace0 .goDeadlines .mainReturn ∧
    evBefore copyTrace0 .mainDeadlines .mainReturn ∧
    relayTCPAssemble 3 none ⟨4, none⟩ = (3, 4, none) :=
  RelayTCPData_copyProtocol copyTrace0 (by decide) 3 none ⟨4, none⟩

/-- Go conversion `int32(x)` from a 64-bit `int`: truncate to 32 bits with
sign. -/
def int32ofInt (x : Int) : Int :=
  (x + 2 ^ 31) % 2 ^ 32 - 2 ^ 31

/-- The `sendNum` initialisation of `StartDnsServer` (`dns_proxy` source lines
327-330): `ret.sendNum = int32(dnsConfig.SendNum)` followed by the clamp
`if ret.sendNum < 1 { ret.sendNum = 1 }` — conversion first, clamp second. -/
def StartDnsServerSendNum (sendNumCfg : Int) : Int :=
  let sendNum := int32ofInt sendNumCfg
  if sendNum < 1 then 1 else sendNum

/-- The `sendNum` update of `Reload` (`dns_proxy` source lines 387-392):
`sendNum := dnsConfig.SendNum`, clamp `if sendNum < 1 { sendNum = 1 }`, then
`atomic.StoreInt32(&c.sendNum, int32(sendNum))` — clamp first, conversion
second. -/
def ReloadSendNum (sendNumCfg : Int) : Int :=
  let sendNum := if sendNumCfg < 1 then 1 else sendNumCfg
  int32ofInt sendNum

/-- C10 (counterexample): `Reload` clamps before truncating, so a
configuration with `SendNum = 2^31` (representable in Go's 64-bit `int`)
passes the clamp unchanged and the `int32` store wraps it to `-2^31 < 1`,
refuting "sendNum ≥ 1 after every Reload for every configuration".
`StartDnsServer` truncates before clamping, so the same configuration is
clamped to 1 there. -/
theorem ReloadSendNum_counterexample :
    ReloadSendNum (2 ^ 31) = -(2 ^ 31) ∧
    ¬ (1 ≤ ReloadSendNum (2 ^ 31)) ∧
    StartDnsServerSendNum (2 ^ 31) = 1 := by
  refine ⟨?_, ?_, ?_⟩
  · norm_num [ReloadSendNum, int32ofInt]
  · norm_num [ReloadSendNum, int32ofInt]
  · norm_num [StartDnsServerSendNum, int32ofInt]

/-- C10 (amended): after `StartDnsServer` the stored `sendNum` is at least 1
for every configured `SendNum` (zero and negative values included, since the
clamp runs after the `int32` conversion); after `Reload` it is at least 1 for
every configured `SendNum` below `2^31` — the clamp runs before the `int32`
conversion, which is the identity on that range. -/
theorem sendNum_spec (x : Int) :
    1 ≤ StartDnsServerSendNum x ∧
    (x < 2 ^ 31 → 1 ≤ ReloadSendNum x) := by
  constructor
  · unfold StartDnsServerSendNum
    by_cases h : int32ofInt x < 1
    · simp [h]
    · simp [h]
      omega
  · intro hx
    unfold ReloadSendNum int32ofInt
    by_cases h : x < 1
    · simp only [if_pos h]
      norm_num
    · simp only [if_neg h]
      have h1 : (0 : Int) ≤ x + 2 ^ 31 := by omega
      have h2 : x + 2 ^ 31 < 2 ^ 32 := by omega
      rw [Int.emod_eq_of_lt h1 h2]
      omega

/-- C10 witness: the amended theorem applied at `SendNum = -3`. -/
theorem sendNum_spec_witness :
    1 ≤ StartDnsServerSendNum (-3) ∧ 1 ≤ ReloadSendNum (-3) :=
  ⟨(sendNum_spec (-3)).1, (sendNum_spec (-3)).2 (by norm_num)⟩

end RedFrog
